import Mathlib

/-!
Verification of the PubMed collaboration-search scripts
(01_screen_affiliations.py, 02_search_collaborations.py, 03_search_with_names.py).

Python strings are modelled as Lean `String` (a structure over `List Char`);
The Python string methods lower, strip and split, the space-join of a list,
slicing and the substring operator are given executable Lean counterparts below.
`re.search(pattern, text, re.IGNORECASE)` is abstracted as a boolean function
`research : α → String → Bool` over an arbitrary pattern type `α`; where a
concrete matcher is needed, `reSearchCI` below realises it for the fragment of
patterns actually required (metacharacter-free literals, optionally anchored
with a trailing dollar).
-/

/-- ASCII lower-casing of one character, the action of the Python lower
method on the ASCII range (all department patterns and roster names are ASCII). -/
def lowerC (c : Char) : Char :=
  if 65 ≤ c.toNat ∧ c.toNat ≤ 90 then Char.ofNat (c.toNat + 32) else c

theorem toNat_ofNat_small (m : Nat) (h1 : 97 ≤ m) (h2 : m ≤ 122) :
    (Char.ofNat m).toNat = m := by
  have hv : m.isValidChar := Or.inl (by omega)
  simp only [Char.ofNat, hv, ↓reduceDIte, Char.ofNatAux, Char.toNat, UInt32.toNat]
  rfl

theorem lowerC_idem (c : Char) : lowerC (lowerC c) = lowerC c := by
  unfold lowerC
  split
  · next h =>
    have ht : (Char.ofNat (c.toNat + 32)).toNat = c.toNat + 32 :=
      toNat_ofNat_small _ (by omega) (by omega)
    rw [if_neg (by omega)]
  · rfl

/-- Python `str.lower` (ASCII action). -/
def pyLower (s : String) : String := ⟨s.data.map lowerC⟩

theorem pyLower_data (s : String) : (pyLower s).data = s.data.map lowerC := rfl

theorem pyLower_idem (s : String) : pyLower (pyLower s) = pyLower s := by
  apply String.ext
  simp [pyLower_data, Function.comp, lowerC_idem]

/-- Python `str.strip()`: remove leading and trailing whitespace. -/
def pyStrip (s : String) : String :=
  ⟨((s.data.dropWhile Char.isWhitespace).reverse.dropWhile Char.isWhitespace).reverse⟩

/-- Python `str.split()` with no argument: split on runs of whitespace,
discarding empty fragments. -/
def pyWords (s : String) : List String :=
  ((s.data.splitOnP Char.isWhitespace).map fun l => (⟨l⟩ : String)).filter
    fun w => w ≠ ""

/-- The Python space-join of a list of strings. -/
def joinSpace : List String → String
  | [] => ""
  | [a] => a
  | a :: rest => a ++ " " ++ joinSpace rest

/-- Boolean list-prefix test (by decidable character equality). -/
def pfxB : List Char → List Char → Bool
  | [], _ => true
  | _ :: _, [] => false
  | a :: as, b :: bs => a = b && pfxB as bs

theorem pfxB_iff (n h : List Char) : pfxB n h = true ↔ ∃ t, h = n ++ t := by
  induction n generalizing h with
  | nil => simp [pfxB]
  | cons a as ih =>
    cases h with
    | nil => simp [pfxB]
    | cons b bs =>
      simp only [pfxB, Bool.and_eq_true, decide_eq_true_eq, ih, List.cons_append,
        List.cons.injEq]
      constructor
      · rintro ⟨rfl, t, rfl⟩; exact ⟨t, rfl, rfl⟩
      · rintro ⟨t, rfl, rfl⟩; exact ⟨rfl, t, rfl⟩

/-- Boolean contiguous-sublist (substring) test: the model of the Python
substring operator on strings. -/
def subB (n : List Char) : List Char → Bool
  | [] => pfxB n []
  | c :: rest => pfxB n (c :: rest) || subB n rest

theorem subB_iff (n h : List Char) : subB n h = true ↔ ∃ pre post, h = pre ++ n ++ post := by
  induction h with
  | nil =>
    simp only [subB, pfxB_iff]
    constructor
    · rintro ⟨t, ht⟩
      exact ⟨[], t, by simpa using ht⟩
    · rintro ⟨pre, post, hpp⟩
      have : pre = [] ∧ n ++ post = [] := by
        constructor
        · cases pre with
          | nil => rfl
          | cons x xs => simp at hpp
        · cases pre with
          | nil => simpa using hpp.symm
          | cons x xs => simp at hpp
      exact ⟨post, by simpa using this.2.symm⟩
  | cons c rest ih =>
    simp only [subB, Bool.or_eq_true, pfxB_iff, ih]
    constructor
    · rintro (⟨t, ht⟩ | ⟨pre, post, hpp⟩)
      · exact ⟨[], t, by simpa using ht⟩
      · exact ⟨c :: pre, post, by simp [hpp]⟩
    · rintro ⟨pre, post, hpp⟩
      cases pre with
      | nil => exact Or.inl ⟨post, by simpa using hpp⟩
      | cons x xs =>
        simp only [List.cons_append, List.cons.injEq] at hpp
        exact Or.inr ⟨xs, post, hpp.2⟩

theorem subB_extend (n pre post h : List Char) (hh : subB n h = true) :
    subB n (pre ++ h ++ post) = true := by
  rcases (subB_iff n h).1 hh with ⟨p, q, rfl⟩
  exact (subB_iff n _).2 ⟨pre ++ p, q ++ post, by simp⟩

/-- Boolean list-suffix test. -/
def sfxB (n h : List Char) : Bool := pfxB n.reverse h.reverse

theorem joinSpace_cons_cons (x y : String) (ys : List String) :
    joinSpace (x :: y :: ys) = x ++ " " ++ joinSpace (y :: ys) := rfl

theorem joinSpace_data_mem (a : String) (A : List String) (ha : a ∈ A) :
    ∃ pre post : List Char, (joinSpace A).data = pre ++ a.data ++ post := by
  induction A with
  | nil => cases ha
  | cons x rest ih =>
    rcases List.mem_cons.1 ha with rfl | hmem
    · cases rest with
      | nil => exact ⟨[], [], by simp [joinSpace]⟩
      | cons y ys =>
        refine ⟨[], (" ").data ++ (joinSpace (y :: ys)).data, ?_⟩
        rw [joinSpace_cons_cons]
        simp [String.data_append, List.append_assoc]
    · cases rest with
      | nil => simp at hmem
      | cons y ys =>
        rcases ih hmem with ⟨pre, post, hpp⟩
        refine ⟨x.data ++ (" ").data ++ pre, post, ?_⟩
        rw [joinSpace_cons_cons]
        simp [String.data_append, hpp, List.append_assoc]

/-- Python string `<=` (lexicographic by code point), as an executable test. -/
def lexLeB : List Char → List Char → Bool
  | [], _ => true
  | _ :: _, [] => false
  | a :: as, b :: bs => if a = b then lexLeB as bs else decide (a < b)

theorem lexLeB_total (as bs : List Char) : lexLeB as bs = true ∨ lexLeB bs as = true := by
  induction as generalizing bs with
  | nil => left; rfl
  | cons a as ih =>
    cases bs with
    | nil => right; rfl
    | cons b bs =>
      by_cases hab : a = b
      · subst hab; simpa [lexLeB] using ih bs
      · rcases lt_or_gt_of_ne hab with h | h
        · left; simp [lexLeB, hab, h]
        · right; simp [lexLeB, Ne.symm hab, not_lt_of_gt h, h]

theorem lexLeB_trans (as bs cs : List Char) (h1 : lexLeB as bs = true)
    (h2 : lexLeB bs cs = true) : lexLeB as cs = true := by
  induction as generalizing bs cs with
  | nil => rfl
  | cons a as ih =>
    cases bs with
    | nil => simp [lexLeB] at h1
    | cons b bs =>
      cases cs with
      | nil => simp [lexLeB] at h2
      | cons c cs =>
        by_cases hab : a = b <;> by_cases hbc : b = c
        · subst hab hbc
          simp only [lexLeB, if_pos rfl] at h1 h2 ⊢
          exact ih bs cs h1 h2
        · subst hab; simpa [lexLeB, hbc] using h2
        · subst hbc; simpa [lexLeB, hab] using h1
        · simp only [lexLeB, if_neg hab, decide_eq_true_eq] at h1
          simp only [lexLeB, if_neg hbc, decide_eq_true_eq] at h2
          have hac : a < c := lt_trans h1 h2
          simp [lexLeB, ne_of_lt hac, hac]

/-- Order-preserving deduplication keeping the first occurrence,
relative to a list of already-seen strings. -/
def firstDedupAux (seen : List String) : List String → List String
  | [] => []
  | x :: xs =>
    if x ∈ seen then firstDedupAux seen xs else x :: firstDedupAux (x :: seen) xs

def firstDedup (l : List String) : List String := firstDedupAux [] l

theorem firstDedupAux_congr (s1 s2 : List String) (l : List String)
    (h : ∀ x, x ∈ s1 ↔ x ∈ s2) : firstDedupAux s1 l = firstDedupAux s2 l := by
  induction l generalizing s1 s2 with
  | nil => rfl
  | cons x xs ih =>
    by_cases hx : x ∈ s1
    · simp only [firstDedupAux, if_pos hx, if_pos ((h x).1 hx)]
      exact ih s1 s2 h
    · simp only [firstDedupAux, if_neg hx, if_neg (fun hc => hx ((h x).2 hc))]
      refine congrArg _ (ih _ _ fun y => ?_)
      simp [h y]

theorem mapLower_idem (l : List Char) : (l.map lowerC).map lowerC = l.map lowerC := by
  simp [List.map_map, Function.comp, lowerC_idem]

/-- The XML prolog used by `02_search_collaborations.py` to re-split naively
concatenated fetch responses. -/
def xmlProlog : String := "<?xml version=\"1.0\""

/-- Scanner for the Python split of the payload at the `xmlProlog` separator:
splits at each (non-overlapping, leftmost) occurrence, removing it and
keeping empty fragments.  The fuel argument is bounded by the input length,
so the fuel-exhausted branch is unreachable. -/
def splitPrologFuel : Nat → List Char → List Char → List (List Char)
  | _, cur, [] => [cur.reverse]
  | 0, cur, l => [cur.reverse ++ l]
  | fuel + 1, cur, c :: rest =>
    if pfxB xmlProlog.data (c :: rest) then
      cur.reverse :: splitPrologFuel fuel [] ((c :: rest).drop xmlProlog.data.length)
    else
      splitPrologFuel fuel (c :: cur) rest

def splitProlog (s : String) : List String :=
  (splitPrologFuel s.data.length [] s.data).map fun l => (⟨l⟩ : String)

/-!
## Regular-expression model

`re.search(pattern, text, re.IGNORECASE)` is treated as an abstract boolean
function wherever a claim quantifies over pattern sets.  For concrete
counterexamples and witnesses, `reSearchCI` realises it on the fragment of
patterns needed: `Pat.lit s` is a metacharacter-free literal pattern (matching
iff `s` occurs, case-insensitively, anywhere in the text), and `Pat.litEnd s`
is such a literal followed by the `$` anchor (Python: match at the end of the
text or just before a trailing newline).
-/

inductive Pat where
  | lit (s : String)
  | litEnd (s : String)

def reSearchCI : Pat → String → Bool
  | .lit p, t => subB (pyLower p).data (pyLower t).data
  | .litEnd p, t =>
    sfxB (pyLower p).data (pyLower t).data ||
      sfxB ((pyLower p).data ++ ['\n']) (pyLower t).data

/-- A case-insensitive literal pattern that matches inside `a` also matches
inside any text containing the lower-cased copy of `a` — literal patterns are
monotone under embedding into larger texts. -/
theorem reSearchCI_lit_extend (p a : String) (pre post : List Char)
    (h : reSearchCI (.lit p) a = true) :
    reSearchCI (.lit p) ⟨pre ++ (pyLower a).data ++ post⟩ = true := by
  simp only [reSearchCI, pyLower_data] at h ⊢
  rw [List.map_append, List.map_append, mapLower_idem]
  exact subB_extend _ _ _ _ h

/-!
## Affiliation matching
(`check_affiliation_match` is textually identical in `02_search_collaborations.py`
and `03_search_with_names.py`; `get_matching_affiliations` differs between the
two files, so each gets its own namespace: `S2` for the second script, `S3`
for the third.)
-/

/-- `check_affiliation_match(affiliations, patterns)`: join all affiliation
strings with a single space, lower-case the result, and report whether any
pattern finds a match in the joined text (the for-loop with early `return
True` is the left-to-right existential). -/
def check_affiliation_match {α : Type} (research : α → String → Bool)
    (affiliations : List String) (patterns : List α) : Bool :=
  let all_affs := pyLower (joinSpace affiliations)
  patterns.any fun pattern => research pattern all_affs

namespace S2

/-- `get_matching_affiliations(affiliations, patterns)` of
`02_search_collaborations.py`: per-string matching, appending each matching
affiliation (the inner `break` makes one append per matching string
occurrence); this version has no duplicate check. -/
def get_matching_affiliations {α : Type} (research : α → String → Bool)
    (affiliations : List String) (patterns : List α) : List String :=
  affiliations.foldl
    (fun ms aff =>
      if patterns.any fun pattern => research pattern aff then ms ++ [aff] else ms)
    []

theorem get_matching_foldl_filter {α : Type} (research : α → String → Bool)
    (patterns : List α) (affiliations : List String) (acc : List String) :
    affiliations.foldl
      (fun ms aff =>
        if patterns.any fun pattern => research pattern aff then ms ++ [aff] else ms)
      acc =
      acc ++ affiliations.filter fun aff => patterns.any fun pattern => research pattern aff := by
  induction affiliations generalizing acc with
  | nil => simp
  | cons a rest ih =>
    by_cases hm : (patterns.any fun pattern => research pattern a) = true
    · rw [List.foldl_cons, if_pos hm, ih]
      simp [List.filter_cons, hm, List.append_assoc]
    · rw [List.foldl_cons, if_neg hm, ih]
      simp [List.filter_cons, hm]

theorem get_matching_eq_filter {α : Type} (research : α → String → Bool)
    (affiliations : List String) (patterns : List α) :
    get_matching_affiliations research affiliations patterns =
      affiliations.filter fun aff => patterns.any fun pattern => research pattern aff := by
  unfold get_matching_affiliations
  rw [get_matching_foldl_filter]
  simp

end S2

namespace S3

/-- `get_matching_affiliations(affiliations, patterns)` of
`03_search_with_names.py`: per-string matching with an `aff not in matches`
duplicate check before appending. -/
def get_matching_affiliations {α : Type} (research : α → String → Bool)
    (affiliations : List String) (patterns : List α) : List String :=
  affiliations.foldl
    (fun ms aff =>
      if patterns.any fun pattern => research pattern aff then
        if aff ∈ ms then ms else ms ++ [aff]
      else ms)
    []

theorem get_matching_foldl_firstDedup {α : Type} (research : α → String → Bool)
    (patterns : List α) (affiliations : List String) (acc : List String) :
    affiliations.foldl
      (fun ms aff =>
        if patterns.any fun pattern => research pattern aff then
          if aff ∈ ms then ms else ms ++ [aff]
        else ms)
      acc =
      acc ++ firstDedupAux acc
        (affiliations.filter fun aff => patterns.any fun pattern => research pattern aff) := by
  induction affiliations generalizing acc with
  | nil => simp [firstDedupAux]
  | cons a rest ih =>
    by_cases hm : (patterns.any fun pattern => research pattern a) = true
    · by_cases ha : a ∈ acc
      · rw [List.foldl_cons, if_pos hm, if_pos ha, ih]
        simp [List.filter_cons, hm, firstDedupAux, ha]
      · rw [List.foldl_cons, if_pos hm, if_neg ha, ih,
          firstDedupAux_congr (acc ++ [a]) (a :: acc) _ (by intro x; simp [or_comm])]
        simp [List.filter_cons, hm, firstDedupAux, ha, List.append_assoc]
    · rw [List.foldl_cons, if_neg hm, ih]
      simp [List.filter_cons, hm]

theorem get_matching_eq_firstDedup {α : Type} (research : α → String → Bool)
    (affiliations : List String) (patterns : List α) :
    get_matching_affiliations research affiliations patterns =
      firstDedup
        (affiliations.filter fun aff => patterns.any fun pattern => research pattern aff) := by
  unfold get_matching_affiliations firstDedup
  rw [get_matching_foldl_firstDedup]
  simp

end S3

namespace S3

/-- `DCTV_PATTERNS` of `03_search_with_names.py` (regex source strings, data). -/
def DCTV_PATTERNS : List String :=
  [ "cardiac.*thoracic.*vascular.*sciences.*public.*health"
  , "cardiac.*thoracic.*vascular.*public.*health"
  , "cardio.*thoraco.*vascular.*public.*health"
  , "cardiovascular.*public.*health.*padov"
  , "cardiovascular.*public.*health.*padua"
  , "cardiac.*thoracic.*vascular.*sciences.*padov"
  , "cardiac.*thoracic.*vascular.*sciences.*padua"
  , "cardiac,?\\s*thoracic,?\\s*(and\\s+)?vascular.*padov"
  , "cardiac,?\\s*thoracic,?\\s*(and\\s+)?vascular.*padua"
  , "legal\\s+medicine.*padov"
  , "legal\\s+medicine.*padua"
  , "medicina\\s+legale.*padov"
  , "cardio.*toraco.*vascolar.*sanit"
  , "scienze.*cardio.*toraco.*vascolar"
  , "\\bdctv\\b" ]

/-- `DSF_PATTERNS` of `03_search_with_names.py`. -/
def DSF_PATTERNS : List String :=
  [ "pharmaceutical.*pharmacological.*sciences.*padov"
  , "pharmaceutical.*pharmacological.*sciences.*padua"
  , "pharmaceutical\\s+(&|and)\\s+pharmacological.*padov"
  , "pharmaceutical\\s+(&|and)\\s+pharmacological.*padua"
  , "scienze.*del.*farmaco.*padov"
  , "scienze.*del.*farmaco.*padua" ]

/-- `DCTV_FACULTY` of `03_search_with_names.py` (roster of names,
format `Lastname Firstname`; `\x27` is the ASCII apostrophe). -/
def DCTV_FACULTY : List String :=
  [ "Angelini Annalisa", "Baldo Vincenzo", "Basso Cristina", "Calabrese Fiorella"
  , "Corrado Domenico", "Cozzi Emanuele", "Gerosa Gino", "Grego Franco"
  , "Gregori Dario", "Montisci Massimo", "Spagnolo Paolo", "Stramare Roberto"
  , "Tarantini Giuseppe", "Tona Francesco", "Vida Vladimiro"
  , "Adimari Gianfranco", "Aprile Anna", "Favretto Donata", "Meloni Federica"
  , "Antonello Michele", "Baldi Ileana", "Baldovin Tatjana", "Baraldo Simonetta"
  , "Bauce Barbara", "Bazzan Erica", "Bertoncello Chiara", "Biondini Davide"
  , "Buja Alessandra", "Caenazzo Luciana", "Caforio Alida", "Canova Cristina"
  , "Carrieri Mariella", "Castellani Chiara", "Catelan Dolores", "Cipriani Alberto"
  , "Cocchio Silvia", "D\x27Onofrio Augusto", "Dell\x27Amore Andrea", "Frigo Anna Chiara"
  , "Gianfredi Vincenza", "Iop Laura", "Mason Paola", "Migliore Federico"
  , "Motta Raffaella", "Pavanello Sofia", "Perazzolo Marra Martina", "Piazza Michele"
  , "Pilichou Kalliopi", "Rizzo Stefania", "Scapellato Maria Luisa", "Schiavon Marco"
  , "Squizzato Francesco", "Tarzia Vincenzo", "Terranova Claudio", "Turato Graziella"
  , "Vianello Andrea", "Viel Guido", "Zampieri Fabio", "Zorzi Alessandro"
  , "Menegolo Mirko", "Bernardinello Nicol", "Campisi Manuela", "Cecere Annagrazia"
  , "Colacchio Elda Chiara", "De Gaspari Monica", "De Michieli Laura", "Faccioli Eleonora"
  , "Franchetti Giorgia", "Giordani Andrea Silvio", "Graziano Francesca", "Liviero Filippo"
  , "Longhini Jessica", "Martinato Matteo", "Ocagli Honoria", "Sabbatini Daniele"
  , "Stoppa Giorgia", "Tine Mariaenrica", "Vadori Marta", "Vedovelli Luca"
  , "Zanatta Alberto", "Giraudo Chiara", "Lorenzoni Giulia", "Pezzuto Federica", "Tozzo Pamela" ]

/-- `DSF_FACULTY` of `03_search_with_names.py`. -/
def DSF_FACULTY : List String :=
  [ "Brini Marisa", "Caliceti Paolo", "Calo Girolamo", "Conconi Maria Teresa"
  , "Gatto Barbara", "Morari Michele", "Moro Stefano", "Pasut Gianfranco"
  , "Salmaso Stefano", "Sissi Claudia"
  , "Bertazzo Antonella", "Chilin Adriana", "Dalla Via Lisa", "De Filippis Vincenzo"
  , "Dolmella Alessandro", "Filippini Raffaella", "Froldi Guglielmina", "Miolo Giorgia"
  , "Bolego Chiara", "Colucci Rocchina", "Comai Stefano", "Dall\x27Acqua Stefano"
  , "De Martin Sara", "Di Liddo Rosa", "Franceschinis Erica", "Gandin Valentina"
  , "Garofalo Mariangela", "Giron Maria Cecilia", "Malfanti Alessio", "Marzano Cristina"
  , "Mastrotto Francesca", "Mattarei Andrea", "Montopoli Monica", "Morpurgo Margherita"
  , "Piovan Anna", "Polverino De Laureto Patrizia", "Sosic Alice", "Spolaore Barbara"
  , "Sturlese Mattia", "Zusso Morena"
  , "Quintieri Luigi", "Semenzato Alessandra", "Trevisi Lucia", "Acquasaliente Laura"
  , "Franchin Cinzia", "Gabbia Daniela", "Bortolozzi Roberta", "Malfacini Davide"
  , "Menilli Luca", "Rampado Riccardo", "Grigoletto Antonella", "Rigo Riccardo"
  , "Runfola Massimiliano", "Salmaso Veronica" ]

/-- The inner-loop body of `check_author_in_list` (03, lines 226-254): does the
single roster entry `faculty` match the single display name `author`?
Both names are lower-cased, stripped and whitespace-split; the final token is
the firstname, the (space-re-joined) remainder the compound lastname; names
with fewer than two tokens never match (`continue`).  Match requires exactly
equal lastnames, both firstnames of length at least 5, and equal
firstname 5-prefixes. -/
def pairMatch (author faculty : String) : Bool :=
  let author_lower := pyStrip (pyLower author)
  let fac_lower := pyStrip (pyLower faculty)
  let fac_parts := pyWords fac_lower
  if fac_parts.length < 2 then false
  else
    let fac_firstname := fac_parts.getLastD ""
    let fac_lastname := joinSpace fac_parts.dropLast
    let author_parts := pyWords author_lower
    if author_parts.length < 2 then false
    else
      let author_firstname := author_parts.getLastD ""
      let author_lastname := joinSpace author_parts.dropLast
      (author_lastname = fac_lastname) && (5 ≤ author_firstname.length) &&
        (5 ≤ fac_firstname.length) && (author_firstname.take 5 = fac_firstname.take 5)

/-- `check_author_in_list(authors, faculty_list)` (03): for each author, scan
the roster and append the author on the first matching entry (`break`). -/
def check_author_in_list (authors faculty_list : List String) : List String :=
  authors.foldl
    (fun ms author =>
      if faculty_list.any fun faculty => pairMatch author faculty then ms ++ [author]
      else ms)
    []

theorem check_author_foldl_eq (faculty_list : List String) (authors acc : List String) :
    authors.foldl
      (fun ms author =>
        if faculty_list.any fun faculty => pairMatch author faculty then ms ++ [author]
        else ms)
      acc =
      acc ++ authors.filter fun author =>
        faculty_list.any fun faculty => pairMatch author faculty := by
  induction authors generalizing acc with
  | nil => simp
  | cons a rest ih =>
    by_cases hm : (faculty_list.any fun faculty => pairMatch a faculty) = true
    · rw [List.foldl_cons, if_pos hm, ih]
      simp [List.filter_cons, hm, List.append_assoc]
    · rw [List.foldl_cons, if_neg hm, ih]
      simp [List.filter_cons, hm]

theorem check_author_eq_filter (authors faculty_list : List String) :
    check_author_in_list authors faculty_list =
      authors.filter fun author =>
        faculty_list.any fun faculty => pairMatch author faculty := by
  unfold check_author_in_list
  rw [check_author_foldl_eq]
  simp

end S3

namespace S2

/-- `DCTV_PATTERNS` of `02_search_collaborations.py`. -/
def DCTV_PATTERNS : List String :=
  [ "cardiac.*thoracic.*vascular.*public.*health"
  , "cardio.*thoraco.*vascular.*public.*health"
  , "cardiothoracic.*vascular.*public.*health"
  , "cardio.*toraco.*vascolar.*sanit"
  , "scienze.*cardio.*toraco.*vascolar"
  , "dctv" ]

/-- `DSF_PATTERNS` of `02_search_collaborations.py`. -/
def DSF_PATTERNS : List String :=
  [ "pharmaceutical.*pharmacological.*sciences"
  , "pharmaceutical.*sciences.*padov"
  , "pharmacological.*sciences.*padov"
  , "scienze.*del.*farmaco" ]

end S2

/-!
## Record parsing

The ElementTree layer is abstracted: a parsed record element is represented by
the text values the scripts actually read from it.  An `Option String` field
stands for "the element was found and had text"; `ET.fromstring` is an
abstract `String → Option PubmedDoc` (with `none` for a raised
`xml.etree.ElementTree.ParseError`).  The upstream schema always puts text in
the PMID/title/date tags when they are present, so element-present-but-empty
is not distinguished from element-absent for those single fields; affiliation
text, which the scripts do test for truthiness, is modelled exactly
(`none` = no text, `some ""` = empty text).
-/

structure RawAuthor where
  lastName : Option String
  foreName : Option String
deriving DecidableEq

structure RawArticleElem where
  pmidText : Option String
  articleTitle : Option String
  journalTitle : Option String
  pubDateYear : Option String
  medlineDate : Option String
  affInfoAffs : List (Option String)
  oldStyleAffs : List (Option String)
  rawAuthors : List RawAuthor
deriving DecidableEq

structure PubmedDoc where
  articles : List RawArticleElem
deriving DecidableEq

structure Article where
  pmid : String
  title : String
  journal : String
  year : String
  authors : List String
  affiliations : List String
deriving DecidableEq

/-- Affiliation collection, identical in both scripts: every truthy
`.//AffiliationInfo/Affiliation` text is appended; then every truthy
`.//Affiliation` text is appended when not already present in the list. -/
def collectAffiliations (newStyle oldStyle : List (Option String)) : List String :=
  let affiliations := newStyle.foldl
    (fun acc o =>
      match o with
      | some t => if t ≠ "" then acc ++ [t] else acc
      | none => acc)
    []
  oldStyle.foldl
    (fun acc o =>
      match o with
      | some t => if t ≠ "" ∧ t ∉ acc then acc ++ [t] else acc
      | none => acc)
    affiliations

/-- The truthy texts of an element list, in order. -/
def truthyTexts (l : List (Option String)) : List String :=
  l.filterMap fun o =>
    match o with
    | some t => if t = "" then none else some t
    | none => none

/-- The old-style affiliations that actually get appended, given the list
`acc` collected so far. -/
def addOldAux (acc : List String) : List (Option String) → List String
  | [] => []
  | o :: rest =>
    match o with
    | none => addOldAux acc rest
    | some t =>
      if t ≠ "" ∧ t ∉ acc then t :: addOldAux (acc ++ [t]) rest else addOldAux acc rest

theorem newStyle_foldl_eq (l : List (Option String)) (acc : List String) :
    l.foldl
      (fun acc o =>
        match o with
        | some t => if t ≠ "" then acc ++ [t] else acc
        | none => acc)
      acc = acc ++ truthyTexts l := by
  induction l generalizing acc with
  | nil => simp [truthyTexts]
  | cons o rest ih =>
    cases o with
    | none => exact (ih acc).trans (by simp [truthyTexts])
    | some t =>
      by_cases ht : t = ""
      · subst ht
        exact (ih acc).trans (by simp [truthyTexts])
      · have h2 : truthyTexts (some t :: rest) = t :: truthyTexts rest := by
          simp [truthyTexts, ht]
        rw [h2]
        refine Eq.trans ?_ ((ih (acc ++ [t])).trans (by simp))
        simp only [List.foldl_cons]
        congr 1
        simp [ht]

theorem oldStyle_foldl_eq (l : List (Option String)) (acc : List String) :
    l.foldl
      (fun acc o =>
        match o with
        | some t => if t ≠ "" ∧ t ∉ acc then acc ++ [t] else acc
        | none => acc)
      acc = acc ++ addOldAux acc l := by
  induction l generalizing acc with
  | nil => simp [addOldAux]
  | cons o rest ih =>
    cases o with
    | none => simp [addOldAux, ih]
    | some t =>
      by_cases hc : t ≠ "" ∧ t ∉ acc
      · simp only [List.foldl_cons, if_pos hc, addOldAux, ih, List.append_assoc,
          List.singleton_append]
      · simp only [List.foldl_cons, if_neg hc, addOldAux, ih]

theorem collectAffiliations_eq (newStyle oldStyle : List (Option String)) :
    collectAffiliations newStyle oldStyle =
      truthyTexts newStyle ++ addOldAux (truthyTexts newStyle) oldStyle := by
  unfold collectAffiliations
  rw [newStyle_foldl_eq, oldStyle_foldl_eq]
  simp

theorem addOldAux_nodup_and_fresh (l : List (Option String)) (acc : List String) :
    (addOldAux acc l).Nodup ∧ ∀ x ∈ addOldAux acc l, x ∉ acc := by
  induction l generalizing acc with
  | nil => simp [addOldAux]
  | cons o rest ih =>
    cases o with
    | none => simpa [addOldAux] using ih acc
    | some t =>
      by_cases hc : t ≠ "" ∧ t ∉ acc
      · rcases ih (acc ++ [t]) with ⟨hnd, hfresh⟩
        simp only [addOldAux, if_pos hc]
        constructor
        · refine List.nodup_cons.2 ⟨fun hmem => ?_, hnd⟩
          exact hfresh t hmem (by simp)
        · intro x hx
          rcases List.mem_cons.1 hx with rfl | hx
          · exact hc.2
          · intro hxa
            exact hfresh x hx (by simp [hxa])
      · simpa [addOldAux, hc] using ih acc

/-- Field extraction for one `PubmedArticle` element, identical in both
scripts: placeholder defaults for pmid/title, empty default for journal,
year from `PubDate/Year` with `PubDate/MedlineDate` fallback truncated to 4
characters, authors as `LastName` or `LastName ForeName` (entries without a
`LastName` element are skipped), affiliations via `collectAffiliations`. -/
def buildArticle (e : RawArticleElem) : Article :=
  { pmid := e.pmidText.getD "Unknown"
  , title := e.articleTitle.getD "No title"
  , journal := e.journalTitle.getD ""
  , year :=
      match e.pubDateYear with
      | some t => if t ≠ "" then t.take 4 else ""
      | none =>
        match e.medlineDate with
        | some t => if t ≠ "" then t.take 4 else ""
        | none => ""
  , authors := e.rawAuthors.filterMap fun au =>
      match au.lastName with
      | none => none
      | some ln =>
        match au.foreName with
        | none => some ln
        | some fn => some (ln ++ " " ++ fn)
  , affiliations := collectAffiliations e.affInfoAffs e.oldStyleAffs }

namespace S3

/-- `parse_xml(xml_data)` of `03_search_with_names.py`: the whole payload is
parsed as one document inside a single `try`; a `ParseError` anywhere
(modelled by `fromstring` returning `none`) yields the articles accumulated
so far, which is always the empty list because `ET.fromstring` runs before
any article is visited. -/
def parse_xml (fromstring : String → Option PubmedDoc) (xml_data : String) :
    List Article :=
  match fromstring xml_data with
  | none => []
  | some root => root.articles.map buildArticle

end S3

namespace S2

/-- `parse_articles(xml_data)` of `02_search_collaborations.py`: the payload
is split at each embedded XML prolog, blank chunks are skipped, the prolog is
re-prepended to chunks that do not already start with `<?xml`, and each chunk
is parsed in its own `try` — a `ParseError` skips only that chunk
(`continue`). -/
def parse_articles (fromstring : String → Option PubmedDoc) (xml_data : String) :
    List Article :=
  (splitProlog xml_data).foldl
    (fun articles chunk =>
      if pyStrip chunk = "" then articles
      else
        let chunk2 :=
          if pfxB ("<?xml" : String).data chunk.data then chunk else xmlProlog ++ chunk
        match fromstring chunk2 with
        | none => articles
        | some root => articles ++ root.articles.map buildArticle)
    []

end S2

/-!
## Search-client error handling

The HTTP layer and `json.loads` are abstracted into the input: `none` stands
for a request/read/decode failure (the `try` body raises before any value is
computed).  `JVal` is a decoded JSON value; the `dict.get` calls, which raise
`AttributeError` on a non-dict receiver, and `int(count)`, which raises
`ValueError` on a malformed string, are modelled exactly — any of those
raises lands in the same `except` branch. -/

inductive JVal where
  | jnull
  | jbool (b : Bool)
  | jnum (n : Int)
  | jstr (s : String)
  | jarr (xs : List JVal)
  | jobj (fields : List (String × JVal))

/-- Python `receiver.get(key, default)`: `none` models an `AttributeError`
because the receiver is not a dict. -/
def jsonGet (v : JVal) (key : String) (dflt : JVal) : Option JVal :=
  match v with
  | .jobj fields => some (((fields.lookup key).getD dflt))
  | _ => none

/-- Python `int(x)` on a decoded JSON value, `none` modelling a raised
`TypeError`/`ValueError`: accepts ints and booleans, and strings that are an
optionally signed run of digits with optional surrounding whitespace. -/
def pyInt : JVal → Option Int
  | .jnum n => some n
  | .jbool b => some (if b then 1 else 0)
  | .jstr s =>
    let t := (pyStrip s).data
    let core : Option (List Char) :=
      match t with
      | '+' :: rest => some rest
      | '-' :: rest => some rest
      | _ => some t
    match core with
    | some ds =>
      if ds ≠ [] ∧ ds.all Char.isDigit then
        let mag : Nat := ds.foldl (fun n c => n * 10 + (c.toNat - 48)) 0
        some (match t with
          | '-' :: _ => -(mag : Int)
          | _ => (mag : Int))
      else none
    | none => none
  | _ => none

namespace S3

/-- `search_pubmed(query, retmax)` of `03_search_with_names.py`, with the
response abstracted: on success it returns the esearchresult idlist together
with the count converted by `int`, using the documented dict-get defaults;
any raise inside the `try` returns `([], 0)`. -/
def search_pubmed (resp : Option JVal) : JVal × Int :=
  match resp with
  | none => (.jarr [], 0)
  | some data =>
    match jsonGet data "esearchresult" (.jobj []) with
    | none => (.jarr [], 0)
    | some result =>
      match jsonGet result "count" (.jstr "0") with
      | none => (.jarr [], 0)
      | some count =>
        match jsonGet result "idlist" (.jarr []) with
        | none => (.jarr [], 0)
        | some pmids =>
          match pyInt count with
          | none => (.jarr [], 0)
          | some n => (pmids, n)

end S3

namespace S2

/-- `search_pubmed(query, retmax)` of `02_search_collaborations.py`: returns
only the id list (the count is printed, not returned); any raise inside the
`try` returns `[]`. -/
def search_pubmed (resp : Option JVal) : JVal :=
  match resp with
  | none => .jarr []
  | some data =>
    match jsonGet data "esearchresult" (.jobj []) with
    | none => .jarr []
    | some result =>
      match jsonGet result "count" (.jstr "0") with
      | none => .jarr []
      | some _count =>
        match jsonGet result "idlist" (.jarr []) with
        | none => .jarr []
        | some pmids => pmids

end S2

namespace S3

/-- A collaboration record of `03_search_with_names.py`: the article dict
with the four derived fields attached by `main` before appending. -/
structure Collab where
  article : Article
  dctv_affiliations : List String
  dsf_affiliations : List String
  dctv_authors : List String
  dsf_authors : List String
deriving DecidableEq

/-- The body of the per-article filtering loop of `main`
(03, lines 347-373): compute the joined lower-cased affiliation text, the
Padova location test, the two affiliation-pattern predicates and the two
roster matches; keep the article iff both affiliation predicates and the
location test hold, attaching the matched affiliation subsets and the roster
matches. -/
def classify (research : String → String → Bool) (article : Article) : Option Collab :=
  let all_affs := pyLower (joinSpace article.affiliations)
  let is_padova := subB ("padov" : String).data all_affs.data ||
    subB ("padua" : String).data all_affs.data
  let has_dctv_aff := check_affiliation_match research article.affiliations DCTV_PATTERNS
  let has_dsf_aff := check_affiliation_match research article.affiliations DSF_PATTERNS
  let dctv_authors := check_author_in_list article.authors DCTV_FACULTY
  let dsf_authors := check_author_in_list article.authors DSF_FACULTY
  let has_both_affiliations := has_dctv_aff && has_dsf_aff && is_padova
  if has_both_affiliations then
    some
      { article := article
      , dctv_affiliations := get_matching_affiliations research article.affiliations DCTV_PATTERNS
      , dsf_affiliations := get_matching_affiliations research article.affiliations DSF_PATTERNS
      , dctv_authors := dctv_authors
      , dsf_authors := dsf_authors }
  else none

/-- The duplicate-removal loop of `main` (03, lines 375-382): a `seen` set of
PMIDs, keeping the first occurrence of each PMID. -/
def dedupPmidAux (seen : List String) : List Collab → List Collab
  | [] => []
  | c :: rest =>
    if c.article.pmid ∈ seen then dedupPmidAux seen rest
    else c :: dedupPmidAux (c.article.pmid :: seen) rest

def removeDuplicatePmids (cs : List Collab) : List Collab := dedupPmidAux [] cs

theorem dedupPmidAux_sublist (seen : List String) (cs : List Collab) :
    List.Sublist (dedupPmidAux seen cs) cs := by
  induction cs generalizing seen with
  | nil => simp [dedupPmidAux]
  | cons c rest ih =>
    by_cases hc : c.article.pmid ∈ seen
    · rw [dedupPmidAux, if_pos hc]
      exact (ih seen).trans (List.sublist_cons_self c rest)
    · rw [dedupPmidAux, if_neg hc]
      exact List.Sublist.cons₂ c (ih (c.article.pmid :: seen))

theorem dedupPmidAux_filter (seen : List String) (cs : List Collab) (p : String) :
    (dedupPmidAux seen cs).filter (fun c => c.article.pmid = p) =
      if p ∈ seen then [] else (cs.filter fun c => c.article.pmid = p).take 1 := by
  induction cs generalizing seen with
  | nil => simp [dedupPmidAux]
  | cons c rest ih =>
    by_cases hc : c.article.pmid ∈ seen
    · rw [dedupPmidAux, if_pos hc]
      by_cases hp : p ∈ seen
      · simp [ih, hp]
      · have hne : ¬ c.article.pmid = p := fun h => hp (h ▸ hc)
        simp [ih, hp, List.filter_cons, hne]
    · rw [dedupPmidAux, if_neg hc]
      by_cases hcp : c.article.pmid = p
      · subst hcp
        simp [List.filter_cons, ih, hc]
      · have hpc : ¬ p = c.article.pmid := fun h => hcp h.symm
        simp [List.filter_cons, hcp, hpc, ih]

/-- Sort key order of `collaborations.sort(key=..., reverse=True)`:
`a` may precede `b` iff the year of `b` is lexicographically at most the
year of `a`. -/
def yearGe (a b : Collab) : Prop :=
  lexLeB b.article.year.data a.article.year.data = true

instance : DecidableRel yearGe := fun a b => inferInstanceAs (Decidable (_ = true))

instance : IsTotal Collab yearGe :=
  ⟨fun a b => lexLeB_total b.article.year.data a.article.year.data⟩

instance : IsTrans Collab yearGe :=
  ⟨fun a b c h1 h2 => lexLeB_trans c.article.year.data b.article.year.data
    a.article.year.data h2 h1⟩

/-- The final sort of `main` (03, line 385): sort by the year key, most
recent first (the year key is always present on a parsed article, so the
0000 floor default never applies).  The Python sort is a stable sort by the
key in descending order; `insertionSort` by `yearGe` is such a sort. -/
def sortByYearDesc (cs : List Collab) : List Collab := cs.insertionSort yearGe

end S3

namespace S2

/-- A collaboration record of `02_search_collaborations.py`: the article dict
with the two derived affiliation fields attached by `main`. -/
structure Collab where
  article : Article
  dctv_affiliations : List String
  dsf_affiliations : List String
deriving DecidableEq

/-- The body of the per-article filtering loop of `main`
(02, lines 241-251): keep the article iff both department predicates hold and
the joined lower-cased affiliation text contains a Padova token, attaching
the matched affiliation subsets. -/
def classify (research : String → String → Bool) (article : Article) : Option Collab :=
  let has_dctv := check_affiliation_match research article.affiliations DCTV_PATTERNS
  let has_dsf := check_affiliation_match research article.affiliations DSF_PATTERNS
  if has_dctv && has_dsf then
    let all_affs := pyLower (joinSpace article.affiliations)
    if subB ("padov" : String).data all_affs.data ||
        subB ("padua" : String).data all_affs.data then
      some
        { article := article
        , dctv_affiliations := get_matching_affiliations research article.affiliations DCTV_PATTERNS
        , dsf_affiliations := get_matching_affiliations research article.affiliations DSF_PATTERNS }
    else none
  else none

end S2

namespace S3

/-- A collaboration record with only the `year` field populated, for
concrete sorting examples. -/
def mkCollabWithYear (y : String) : Collab :=
  { article := { pmid := "", title := "", journal := "", year := y
               , authors := [], affiliations := [] }
  , dctv_affiliations := [], dsf_affiliations := []
  , dctv_authors := [], dsf_authors := [] }

end S3

theorem firstDedupAux_nodup_and_fresh (l seen : List String) :
    (firstDedupAux seen l).Nodup ∧ ∀ x ∈ firstDedupAux seen l, x ∉ seen := by
  induction l generalizing seen with
  | nil => simp [firstDedupAux]
  | cons x xs ih =>
    by_cases hx : x ∈ seen
    · rw [firstDedupAux, if_pos hx]
      exact ih seen
    · rw [firstDedupAux, if_neg hx]
      rcases ih (x :: seen) with ⟨hnd, hfresh⟩
      constructor
      · refine List.nodup_cons.2 ⟨fun hmem => ?_, hnd⟩
        exact hfresh x hmem (by simp)
      · intro y hy
        rcases List.mem_cons.1 hy with rfl | hy
        · exact hx
        · intro hys
          exact hfresh y hy (by simp [hys])

theorem firstDedup_nodup (l : List String) : (firstDedup l).Nodup :=
  (firstDedupAux_nodup_and_fresh l []).1

theorem firstDedupAux_subset (l seen : List String) (x : String)
    (hx : x ∈ firstDedupAux seen l) : x ∈ l := by
  induction l generalizing seen with
  | nil => simp [firstDedupAux] at hx
  | cons y ys ih =>
    by_cases hy : y ∈ seen
    · rw [firstDedupAux, if_pos hy] at hx
      exact List.mem_cons_of_mem y (ih seen hx)
    · rw [firstDedupAux, if_neg hy] at hx
      rcases List.mem_cons.1 hx with rfl | hx
      · exact List.mem_cons_self x ys
      · exact List.mem_cons_of_mem y (ih (y :: seen) hx)

/-!
## Claim theorems
-/

/-- C2: for every affiliation list `A` and pattern set `P`, the boolean
affiliation check returns true iff at least one pattern in `P` (applied
case-insensitively, which is what the abstract `research` models) finds a
match somewhere in the lower-cased space-joined concatenation of `A`. -/
theorem affiliation_match_iff {α : Type} (research : α → String → Bool)
    (A : List String) (P : List α) :
    check_affiliation_match research A P = true ↔
      ∃ p ∈ P, research p (pyLower (joinSpace A)) = true := by
  simp [check_affiliation_match, List.any_eq_true]

/-- C4 counterexample: `get_matching_affiliations` of
`02_search_collaborations.py` does not deduplicate — on the affiliation list
`["a dctv", "a dctv"]` (the same string twice, as happens when two authors
carry an identical affiliation) and the literal pattern `dctv`, the returned
subset contains the string twice, so "no string appears twice in the result"
fails. -/
theorem matched_subset_dedup_cex :
    S2.get_matching_affiliations reSearchCI ["a dctv", "a dctv"] [Pat.lit "dctv"] =
        ["a dctv", "a dctv"] ∧
      ¬ (S2.get_matching_affiliations reSearchCI ["a dctv", "a dctv"]
          [Pat.lit "dctv"]).Nodup := by
  decide

/-- C4 (amended): both extraction functions match the patterns against each
affiliation string individually and return exactly the matching input strings
in input order; the version in `03_search_with_names.py` deduplicates
(keeping first occurrences), while the version in
`02_search_collaborations.py` keeps duplicates, returning one entry per
matching occurrence. -/
theorem matched_subset_extraction_spec {α : Type} (research : α → String → Bool)
    (A : List String) (P : List α) :
    S3.get_matching_affiliations research A P =
        firstDedup (A.filter fun a => P.any fun p => research p a) ∧
      (S3.get_matching_affiliations research A P).Nodup ∧
      S2.get_matching_affiliations research A P =
        (A.filter fun a => P.any fun p => research p a) := by
  refine ⟨S3.get_matching_eq_firstDedup research A P, ?_,
    S2.get_matching_eq_filter research A P⟩
  rw [S3.get_matching_eq_firstDedup]
  exact firstDedup_nodup _

/-- C7: the final deduplication loop of `03_search_with_names.py` keeps a
subsequence of the filtered collaborations (first-occurrence order preserved)
in which, for every identifier, exactly the first collaboration carrying that
identifier survives — with its derived fields retained, since the element
itself is kept unchanged. -/
theorem dedup_by_pmid_spec (cs : List S3.Collab) :
    List.Sublist (S3.removeDuplicatePmids cs) cs ∧
      ∀ p, (S3.removeDuplicatePmids cs).filter (fun c => c.article.pmid = p) =
        (cs.filter fun c => c.article.pmid = p).take 1 := by
  refine ⟨S3.dedupPmidAux_sublist [] cs, fun p => ?_⟩
  simpa [S3.removeDuplicatePmids] using S3.dedupPmidAux_filter [] cs p

/-- C8: for every collaboration list whose `year` fields are empty or exactly
4 digits, the sorted output is a permutation of the input, descending by year
under lexicographic string comparison (so empty years come last); on years
"2023", "2019", "", "2024" the output order is "2024", "2023", "2019", "". -/
theorem sort_by_year_desc_spec (cs : List S3.Collab)
    (hyears : ∀ c ∈ cs, c.article.year = "" ∨
      (c.article.year.length = 4 ∧ ∀ ch ∈ c.article.year.data, ch.isDigit)) :
    List.Sorted S3.yearGe (S3.sortByYearDesc cs) ∧
      (S3.sortByYearDesc cs).Perm cs ∧
      (S3.sortByYearDesc
          [ S3.mkCollabWithYear "2023", S3.mkCollabWithYear "2019"
          , S3.mkCollabWithYear "", S3.mkCollabWithYear "2024" ]).map
          (fun c => c.article.year) = ["2024", "2023", "2019", ""] :=
  ⟨List.sorted_insertionSort S3.yearGe cs, List.perm_insertionSort S3.yearGe cs,
    by decide⟩

/-- C8 witness: the theorem applied to the concrete four-element list. -/
theorem sort_by_year_desc_witness :
    List.Sorted S3.yearGe (S3.sortByYearDesc
      [ S3.mkCollabWithYear "2023", S3.mkCollabWithYear "2019"
      , S3.mkCollabWithYear "", S3.mkCollabWithYear "2024" ]) :=
  (sort_by_year_desc_spec
    [ S3.mkCollabWithYear "2023", S3.mkCollabWithYear "2019"
    , S3.mkCollabWithYear "", S3.mkCollabWithYear "2024" ] (by decide)).1

/-- C9: when the search request, response read or JSON decode fails (the
abstracted response is `none`), `search_pubmed` of `03_search_with_names.py`
returns `([], 0)` and `search_pubmed` of `02_search_collaborations.py`
returns `[]`; being total Lean functions, neither propagates an exception. -/
theorem search_failure_degrade (resp : Option JVal) (hfail : resp = none) :
    S3.search_pubmed resp = (JVal.jarr [], 0) ∧
      S2.search_pubmed resp = JVal.jarr [] := by
  subst hfail
  exact ⟨rfl, rfl⟩

/-- C9 witness: the theorem applied to the failing response. -/
theorem search_failure_degrade_witness :
    S3.search_pubmed none = (JVal.jarr [], 0) ∧
      S2.search_pubmed none = JVal.jarr [] :=
  search_failure_degrade none rfl

/-- C6 counterexample: when the new-style location yields the same truthy
text twice (two authors with the identical affiliation string), both copies
are kept — the parsed affiliations list is not duplicate-free. -/
theorem affiliation_dedup_cex :
    collectAffiliations [some "X", some "X"] [] = ["X", "X"] ∧
      ¬ (collectAffiliations [some "X", some "X"] []).Nodup := by
  decide

/-- C6 (amended): the affiliations list is the truthy new-style texts in
order, followed by those truthy old-style texts not already present
(first-seen order, no old-style-added string duplicating anything); the list
as a whole is duplicate-free only when the new-style texts are themselves
duplicate-free, since duplicates inside the new-style list are retained. -/
theorem affiliation_dedup_spec (newStyle oldStyle : List (Option String)) :
    collectAffiliations newStyle oldStyle =
        truthyTexts newStyle ++ addOldAux (truthyTexts newStyle) oldStyle ∧
      (addOldAux (truthyTexts newStyle) oldStyle).Nodup ∧
      (∀ x ∈ addOldAux (truthyTexts newStyle) oldStyle, x ∉ truthyTexts newStyle) ∧
      ((truthyTexts newStyle).Nodup → (collectAffiliations newStyle oldStyle).Nodup) := by
  obtain ⟨hnd, hfresh⟩ := addOldAux_nodup_and_fresh oldStyle (truthyTexts newStyle)
  refine ⟨collectAffiliations_eq _ _, hnd, hfresh, fun hnew => ?_⟩
  rw [collectAffiliations_eq, List.nodup_append]
  exact ⟨hnew, hnd, fun x hx hx2 => hfresh x hx2 hx⟩

/-- C6 witness: a duplicate-free new-style list with an old-style list
containing one fresh and one already-present text yields a duplicate-free
affiliations list. -/
theorem affiliation_dedup_witness :
    (collectAffiliations [some "A"] [some "B", some "A"]).Nodup :=
  (affiliation_dedup_spec [some "A"] [some "B", some "A"]).2.2.2 (by decide)

/-- C3: a roster entry matches an author (in `check_author_in_list`) iff,
after lower-casing, stripping and whitespace-splitting both names with the
final token as firstname and the re-joined remainder as compound lastname,
the lastnames are exactly equal, both firstnames have length at least 5, and
their 5-character prefixes agree; the output of `check_author_in_list` keeps
each author occurrence at most once (a filter — first roster hit wins), while
one roster entry may match several distinct authors: roster
"De Filippis Vincenzo" matches authors "De Filippis Vincenzo" and
"De Filippis Vince" but not "De Filippis Vi". -/
theorem author_reconciliation_spec (author fac : String)
    (authors roster : List String)
    (ha : 2 ≤ (pyWords (pyStrip (pyLower author))).length)
    (hf : 2 ≤ (pyWords (pyStrip (pyLower fac))).length) :
    (S3.pairMatch author fac = true ↔
        (joinSpace (pyWords (pyStrip (pyLower author))).dropLast =
            joinSpace (pyWords (pyStrip (pyLower fac))).dropLast ∧
          5 ≤ ((pyWords (pyStrip (pyLower author))).getLastD "").length ∧
          5 ≤ ((pyWords (pyStrip (pyLower fac))).getLastD "").length ∧
          ((pyWords (pyStrip (pyLower author))).getLastD "").take 5 =
            ((pyWords (pyStrip (pyLower fac))).getLastD "").take 5)) ∧
      S3.check_author_in_list authors roster =
        (authors.filter fun a => roster.any fun f => S3.pairMatch a f) ∧
      S3.check_author_in_list
          ["De Filippis Vincenzo", "De Filippis Vince", "De Filippis Vi"]
          ["De Filippis Vincenzo"] =
        ["De Filippis Vincenzo", "De Filippis Vince"] := by
  refine ⟨?_, S3.check_author_eq_filter authors roster, by decide⟩
  have h1 : ¬ (pyWords (pyStrip (pyLower fac))).length < 2 := by omega
  have h2 : ¬ (pyWords (pyStrip (pyLower author))).length < 2 := by omega
  simp [S3.pairMatch, h1, h2, and_assoc]

/-- C3 witness: the theorem applied to the "De Filippis" roster example. -/
theorem author_reconciliation_witness :
    S3.pairMatch "De Filippis Vince" "De Filippis Vincenzo" = true :=
  ((author_reconciliation_spec "De Filippis Vince" "De Filippis Vincenzo" [] []
    (by decide) (by decide)).1).mpr (by decide)

theorem classify03_isSome_eq (research : String → String → Bool) (art : Article) :
    (S3.classify research art).isSome =
      (check_affiliation_match research art.affiliations S3.DCTV_PATTERNS &&
        check_affiliation_match research art.affiliations S3.DSF_PATTERNS &&
        (subB ("padov" : String).data (pyLower (joinSpace art.affiliations)).data ||
          subB ("padua" : String).data (pyLower (joinSpace art.affiliations)).data)) := by
  simp only [S3.classify]
  split
  · next h => simp [h]
  · next h =>
    rw [Bool.not_eq_true] at h
    simp [h]

theorem classify02_isSome_eq (research : String → String → Bool) (art : Article) :
    (S2.classify research art).isSome =
      (check_affiliation_match research art.affiliations S2.DCTV_PATTERNS &&
        check_affiliation_match research art.affiliations S2.DSF_PATTERNS &&
        (subB ("padov" : String).data (pyLower (joinSpace art.affiliations)).data ||
          subB ("padua" : String).data (pyLower (joinSpace art.affiliations)).data)) := by
  simp only [S2.classify]
  split
  · next h1 =>
    split
    · next h2 => simp [h1, h2]
    · next h2 =>
      rw [Bool.not_eq_true] at h2
      simp [h1, h2]
  · next h1 =>
    rw [Bool.not_eq_true] at h1
    simp [h1]

/-- C1: in both scripts an article is kept as a collaboration iff the DCTV
affiliation predicate and the DSF affiliation predicate hold and the
lower-cased joined affiliation text contains `padov` or `padua`; the decision
is unchanged under any replacement of the author list of the article, and the
roster-match lists are only attached to the kept record. -/
theorem collaboration_decision_iff (research : String → String → Bool) (a : Article) :
    ((S3.classify research a).isSome = true ↔
        (check_affiliation_match research a.affiliations S3.DCTV_PATTERNS = true ∧
          check_affiliation_match research a.affiliations S3.DSF_PATTERNS = true ∧
          (subB ("padov" : String).data (pyLower (joinSpace a.affiliations)).data = true ∨
            subB ("padua" : String).data (pyLower (joinSpace a.affiliations)).data = true))) ∧
      (∀ authors2 : List String,
        (S3.classify research { a with authors := authors2 }).isSome =
          (S3.classify research a).isSome) ∧
      (∀ c, S3.classify research a = some c →
        c.article = a ∧
          c.dctv_authors = S3.check_author_in_list a.authors S3.DCTV_FACULTY ∧
          c.dsf_authors = S3.check_author_in_list a.authors S3.DSF_FACULTY) ∧
      ((S2.classify research a).isSome = true ↔
        (check_affiliation_match research a.affiliations S2.DCTV_PATTERNS = true ∧
          check_affiliation_match research a.affiliations S2.DSF_PATTERNS = true ∧
          (subB ("padov" : String).data (pyLower (joinSpace a.affiliations)).data = true ∨
            subB ("padua" : String).data (pyLower (joinSpace a.affiliations)).data = true))) := by
  refine ⟨?_, ?_, ?_, ?_⟩
  · rw [classify03_isSome_eq]
    simp [and_assoc]
  · intro authors2
    rw [classify03_isSome_eq, classify03_isSome_eq]
  · intro c hc
    simp only [S3.classify] at hc
    split at hc
    · cases hc
      exact ⟨rfl, rfl, rfl⟩
    · cases hc
  · rw [classify02_isSome_eq]
    simp [and_assoc]

/-- C1 witness: the attachment clause of the theorem applied to an always-matching
pattern matcher and a one-affiliation Padova article. -/
theorem collaboration_decision_iff_witness :
    ({ article := { pmid := "1", title := "", journal := "", year := ""
                  , authors := [], affiliations := ["University of Padova"] }
     , dctv_affiliations := ["University of Padova"]
     , dsf_affiliations := ["University of Padova"]
     , dctv_authors := [], dsf_authors := [] } : S3.Collab).article =
        { pmid := "1", title := "", journal := "", year := ""
        , authors := [], affiliations := ["University of Padova"] } ∧
      ({ article := { pmid := "1", title := "", journal := "", year := ""
                    , authors := [], affiliations := ["University of Padova"] }
       , dctv_affiliations := ["University of Padova"]
       , dsf_affiliations := ["University of Padova"]
       , dctv_authors := [], dsf_authors := [] } : S3.Collab).dctv_authors =
        S3.check_author_in_list [] S3.DCTV_FACULTY ∧
      ({ article := { pmid := "1", title := "", journal := "", year := ""
                    , authors := [], affiliations := ["University of Padova"] }
       , dctv_affiliations := ["University of Padova"]
       , dsf_affiliations := ["University of Padova"]
       , dctv_authors := [], dsf_authors := [] } : S3.Collab).dsf_authors =
        S3.check_author_in_list [] S3.DSF_FACULTY :=
  (collaboration_decision_iff (fun _ _ => true)
      { pmid := "1", title := "", journal := "", year := ""
      , authors := [], affiliations := ["University of Padova"] }).2.2.1
    _ (by decide)

/-- C10 counterexample: with the anchored pattern `ab$` (a literal followed
by the dollar anchor), the per-string extraction on `["ab", "c"]` is
non-empty — `ab$` matches the string `"ab"` — yet the joined boolean check is
false, because in the joined text `"ab c"` the literal no longer sits at the
end; a per-string match does not imply a joined-text match for every pattern
set. -/
theorem extraction_joined_anchor_cex :
    S3.get_matching_affiliations reSearchCI ["ab", "c"] [Pat.litEnd "ab"] = ["ab"] ∧
      check_affiliation_match reSearchCI ["ab", "c"] [Pat.litEnd "ab"] = false := by
  decide

/-- C10 (amended): every string returned by the per-string matched-subset
extraction is an element of the input list; and for pattern sets whose
matching is case-insensitive and monotone under embedding into arbitrary
larger texts — patterns built from literals, wildcards and alternation only,
with no anchor; a pattern carrying a dollar or word-boundary anchor, such as
the one word-boundary pattern in the 03 DCTV set, need not satisfy this
hypothesis — a non-empty extraction implies that the joined boolean check is
true, since each affiliation string occurs contiguously in the joined text. -/
theorem extraction_implies_joined_spec {α : Type} (research : α → String → Bool)
    (A : List String) (P : List α) :
    (∀ s ∈ S3.get_matching_affiliations research A P, s ∈ A) ∧
      ((∀ p ∈ P, ∀ (a : String) (pre post : List Char),
          research p a = true → research p ⟨pre ++ (pyLower a).data ++ post⟩ = true) →
        S3.get_matching_affiliations research A P ≠ [] →
        check_affiliation_match research A P = true) := by
  constructor
  · intro s hs
    rw [S3.get_matching_eq_firstDedup] at hs
    exact (List.mem_filter.1 (firstDedupAux_subset _ [] s hs)).1
  · intro hmono hne
    have hf : (A.filter fun a => P.any fun p => research p a) ≠ [] := by
      intro h
      apply hne
      rw [S3.get_matching_eq_firstDedup, h]
      rfl
    obtain ⟨x, hx⟩ := List.exists_mem_of_ne_nil _ hf
    have hxA : x ∈ A := (List.mem_filter.1 hx).1
    have hxm : (P.any fun p => research p x) = true := by
      simpa using (List.mem_filter.1 hx).2
    obtain ⟨p, hpP, hpx⟩ := List.any_eq_true.1 hxm
    obtain ⟨pre, post, hjoin⟩ := joinSpace_data_mem x A hxA
    have hkey : research p (pyLower (joinSpace A)) = true := by
      have h2 := hmono p hpP x (pre.map lowerC) (post.map lowerC) hpx
      have heq : pyLower (joinSpace A) =
          (⟨pre.map lowerC ++ (pyLower x).data ++ post.map lowerC⟩ : String) := by
        apply String.ext
        simp [pyLower_data, hjoin, List.map_append]
      rw [heq]
      exact h2
    simp only [check_affiliation_match, List.any_eq_true]
    exact ⟨p, hpP, hkey⟩

/-- C10 witness: the theorem applied to the literal pattern `dctv` (which is
monotone by `reSearchCI_lit_extend`) on a one-element affiliation list. -/
theorem extraction_implies_joined_witness :
    check_affiliation_match reSearchCI ["padova dctv"] [Pat.lit "dctv"] = true :=
  (extraction_implies_joined_spec reSearchCI ["padova dctv"] [Pat.lit "dctv"]).2
    (fun p hp a pre post h => by
      have hple : p = Pat.lit "dctv" := by simpa using hp
      subst hple
      exact reSearchCI_lit_extend "dctv" a pre post h)
    (by decide)

/-- C5 counterexample: `parse_xml` of `03_search_with_names.py` parses the
whole payload as one document inside a single `try`.  On a payload holding
one well-formed record followed by one truncated record, `ET.fromstring`
raises `ParseError` for the whole string (modelled by the abstract parser
returning `none`), so the result is `[]` — the well-formed record is lost
rather than yielding exactly one parsed article. -/
theorem parser_whole_payload_cex :
    S3.parse_xml (fun _ => none)
      ("<?xml version=\"1.0\"?><PubmedArticleSet><PubmedArticle><PMID>1</PMID>" ++
        "</PubmedArticle><PubmedArticle><PMID>2</PMI") = [] := rfl

theorem pyStrip_empty : pyStrip "" = "" := rfl

/-- C5 (amended): in `parse_articles` of `02_search_collaborations.py`, where
the payload is split into documents and each document is parsed under its own
`try`, a payload made of one well-formed single-record document and one
structurally invalid document — in either order — yields exactly the one
parsed article, with no exception; in `parse_xml` of
`03_search_with_names.py` the same payload is one document and a structural
failure anywhere loses every record in it (still without raising). -/
theorem parser_per_document_resilience
    (fromstring : String → Option PubmedDoc) (payload g b : String)
    (art : RawArticleElem)
    (hsplit : splitProlog payload = ["", g, b] ∨ splitProlog payload = ["", b, g])
    (hgs : pyStrip g ≠ "") (hbs : pyStrip b ≠ "")
    (hgx : pfxB ("<?xml" : String).data g.data = false)
    (hbx : pfxB ("<?xml" : String).data b.data = false)
    (hgood : fromstring (xmlProlog ++ g) = some ⟨[art]⟩)
    (hbad : fromstring (xmlProlog ++ b) = none) :
    S2.parse_articles fromstring payload = [buildArticle art] := by
  simp only [S2.parse_articles]
  rcases hsplit with h | h <;>
    rw [h] <;>
    simp [List.foldl_cons, List.foldl_nil, pyStrip_empty, hgs, hbs, hgx, hbx,
      hgood, hbad]

/-- C5 witness: the theorem applied to the concrete payload
`<?xml version="1.0"?><A/><?xml version="1.0"?><B` (a well-formed single-record
document followed by a truncated one) and a parser that accepts exactly the
well-formed document. -/
theorem parser_per_document_resilience_witness :
    S2.parse_articles
        (fun s =>
          if s = xmlProlog ++ "?><A/>" then
            some ⟨[⟨some "1", none, none, none, none, [], [], []⟩]⟩
          else none)
        ("<?xml version=\"1.0\"?><A/><?xml version=\"1.0\"?><B") =
      [buildArticle ⟨some "1", none, none, none, none, [], [], []⟩] :=
  parser_per_document_resilience _ _ "?><A/>" "?><B"
    ⟨some "1", none, none, none, none, [], [], []⟩
    (Or.inl (by decide)) (by decide) (by decide) (by decide) (by decide)
    (by decide) (by decide)
